import Mathlib

/-!
Verification of the deepbots-evo cartpole controllers: the message codec,
the robot-side receive/apply/emit loop (multi_cartpole discrete robot and
the continuous single-cartpole robot), and the supervisor's observation,
termination and solved logic.

Text frames are modelled as `List Char`; decoded messages as
`List (List Char)` (Python lists of strings).  Python numerics are
modelled with `ℚ`; `float('inf')` wheel positions are modelled as `none`.
Fallible Python code (int()/float() parsing, assert, list indexing)
returns `Except String`.
-/

/-- Value of a decimal digit character. -/
def digitVal (c : Char) : ℕ := c.toNat - 48

/-- Value of a nonempty all-digit character list, else `none`
(models the digit part of Python `int(s)`). -/
def decDigits (cs : List Char) : Option ℕ :=
  if cs ≠ [] ∧ cs.all Char.isDigit then
    some (cs.foldl (fun n c => 10 * n + digitVal c) 0)
  else none

/-- Like `decDigits` but an empty digit list counts as zero
(the integer or fractional part of a float literal may be empty). -/
def decDigits0 (cs : List Char) : Option ℕ :=
  if cs.all Char.isDigit then
    some (cs.foldl (fun n c => 10 * n + digitVal c) 0)
  else none

/-- Python `int(s)` on a plain decimal literal with optional sign. -/
def pyInt (cs : List Char) : Option ℤ :=
  match cs with
  | '-' :: rest => (decDigits rest).map (fun n => -(n : ℤ))
  | '+' :: rest => (decDigits rest).map (fun n => (n : ℤ))
  | _ => (decDigits cs).map (fun n => (n : ℤ))

/-- Split a character list on a delimiter character
(Python `str.split(d)`: `"".split(d)` yields `[""]`). -/
def splitOnChar (d : Char) : List Char → List (List Char)
  | [] => [[]]
  | c :: cs =>
    match splitOnChar d cs with
    | [] => [[]]
    | t :: ts => if c = d then [] :: t :: ts else (c :: t) :: ts

/-- Magnitude of a Python float literal: integer part, optional dot,
fractional part (at least one of the two parts nonempty). -/
def pyFloatMag (cs : List Char) : Option ℚ :=
  match splitOnChar '.' cs with
  | [ip] => (decDigits ip).map (fun n => (n : ℚ))
  | [ip, fp] =>
    if ip = [] ∧ fp = [] then none
    else
      match decDigits0 ip, decDigits0 fp with
      | some i, some f => some ((i : ℚ) + (f : ℚ) / (10 : ℚ) ^ fp.length)
      | _, _ => none
  | _ => none

/-- Python `float(s)` on a plain decimal literal with optional sign. -/
def pyFloat (cs : List Char) : Option ℚ :=
  match cs with
  | '-' :: rest => (pyFloatMag rest).map (fun q => -q)
  | '+' :: rest => (pyFloatMag rest).map (fun q => q)
  | _ => pyFloatMag cs

/-- Frame decoding used by `handle_receiver`: `message.split(",")`. -/
def decodeFrame (frame : List Char) : List (List Char) :=
  splitOnChar ',' frame

/-- Frame encoding used by `handle_emitter`: `",".join(fields)`,
with the fields already in string form (Python `map(str, data)`). -/
def encodeFrame : List (List Char) → List Char
  | [] => []
  | [t] => t
  | t :: t2 :: ts => t ++ ',' :: encodeFrame (t2 :: ts)

/-- One wheel motor: `setPosition(float('inf'))` is recorded as a `none`
position, `setVelocity` as the rational velocity. -/
structure Wheel where
  position : Option ℚ
  velocity : ℚ
deriving DecidableEq, Repr

/-- State of a `CartPoleRobot` process: the emitter and receiver channel
numbers fixed in `__init__`, and the four wheel motors. -/
structure RobotState where
  emitterChannel : ℤ
  receiverChannel : ℤ
  wheels : List Wheel
deriving DecidableEq, Repr

/-- The wheel-update loop shared by both `use_message_data` variants:
for every wheel, `setPosition(float('inf'))` and `setVelocity(motorSpeed)`. -/
def setWheels (motorSpeed : ℚ) (s : RobotState) : RobotState :=
  { s with wheels := s.wheels.map (fun _ => ⟨none, motorSpeed⟩) }

/-- `CartPoleRobot.use_message_data` of the multi_cartpole robot:
`action = int(message[0])`; `assert action == 0 or action == 1`;
action 0 applies motor speed `5.0`, action 1 applies `-5.0`. -/
def use_message_data (message : List (List Char)) (s : RobotState) :
    Except String RobotState :=
  match message.head? with
  | none => Except.error "IndexError: list index out of range"
  | some tok =>
    match pyInt tok with
    | none => Except.error "ValueError: invalid literal for int() with base 10"
    | some action =>
      if action = 0 ∨ action = 1 then
        Except.ok (setWheels (if action = 0 then 5 else -5) s)
      else
        Except.error
          ("AssertionError: CartPoleRobot controller got incorrect action value: "
            ++ toString action)

/-- `CartPoleRobot.handle_receiver` of the multi_cartpole robot: while the
receiver queue is nonempty, decode the front frame (utf-8, split on comma),
feed it to `use_message_data`, and advance to the next packet. -/
def handle_receiver : List (List Char) → RobotState → Except String RobotState
  | [], s => Except.ok s
  | frame :: rest, s =>
    match use_message_data (decodeFrame frame) s with
    | Except.ok s2 => handle_receiver rest s2
    | Except.error e => Except.error e

/-- `int(self.robot.getName()[-1])`: the integer value of the last
character of the robot's name. -/
def robot_num (name : List Char) : Option ℤ :=
  match name.getLast? with
  | none => none
  | some c => pyInt [c]

/-- `CartPoleRobot.__init__` of the multi_cartpole robot: derive
`robot_num` from the name, set the emitter channel and the receiver
channel both to `robot_num`, and initialize the four wheels with
infinite position and zero velocity (`setup_motors`). -/
def cartPoleRobot_init (name : List Char) : Option RobotState :=
  match robot_num name with
  | none => none
  | some n =>
    some { emitterChannel := n, receiverChannel := n,
           wheels := List.replicate 4 ⟨none, 0⟩ }

/-- Observable events of one robot tick: a decoded command frame applied
to the actuators, or the single observation value sensed and sent. -/
inductive RunEvent where
  | applied (frame : List Char)
  | sent (value : ℚ)
deriving DecidableEq, Repr

/-- `handle_receiver` instrumented with the per-frame apply events, in
the order the source's while-loop performs them. -/
def drainTrace : List (List Char) → RobotState →
    Except String (RobotState × List RunEvent)
  | [], s => Except.ok (s, [])
  | frame :: rest, s =>
    match use_message_data (decodeFrame frame) s with
    | Except.ok s2 =>
      match drainTrace rest s2 with
      | Except.ok (s3, evs) => Except.ok (s3, RunEvent.applied frame :: evs)
      | Except.error e => Except.error e
    | Except.error e => Except.error e

/-- One iteration of `CartPoleRobot.run`: `handle_receiver()` first,
then `handle_emitter()` sends the one observation frame built by
`create_message` from the position sensor value. -/
def runTick (queue : List (List Char)) (sensorValue : ℚ) (s : RobotState) :
    Except String (RobotState × List RunEvent) :=
  match drainTrace queue s with
  | Except.ok (s2, evs) => Except.ok (s2, evs ++ [RunEvent.sent sensorValue])
  | Except.error e => Except.error e

/-- `CartPoleRobot.use_message_data` of the continuous single-cartpole
robot: `motorSpeed = float(message[0]) * 5.0` (scaling [-1,1] to [-5,5]),
applied to all wheels with no domain check. -/
def use_message_data_continuous (message : List (List Char)) (s : RobotState) :
    Except String RobotState :=
  match message.head? with
  | none => Except.error "IndexError: list index out of range"
  | some tok =>
    match pyFloat tok with
    | none => Except.error "ValueError: could not convert string to float"
    | some x => Except.ok (setWheels (x * 5) s)

/-- Modelled from the spec: the supervisor controller imports
`normalizeToRange` from a `utilities` module whose source is not among the
examined files.  The spec states: "normalize(v, lo, hi, a, b, clip) maps v
affinely from [lo, hi] to [a, b]; if clip is true the output is clamped to
[a, b]; if false, out-of-range v produces out-of-range output". -/
def normalizeToRange (v lo hi a b : ℚ) (clip : Bool) : ℚ :=
  let y := (b - a) * (v - lo) / (hi - lo) + a
  if clip then min b (max a y) else y

/-- `self.observationSpace = 4` set in `CartPoleSupervisor.__init__`. -/
def observationSpace : ℕ := 4

/-- `CartPoleSupervisor.get_default_observation`: a zero vector in the
shape of the observation space. -/
def get_default_observation : List ℚ :=
  List.replicate observationSpace 0

/-- `CartPoleSupervisor.get_observations`: cart position normalized from
[-0.4, 0.4] (no clip), cart velocity from [-0.2, 0.2] (clip), pole angle
from the robot's message normalized from [-0.23, 0.23] (clip) or `0.0`
when no message has been received, endpoint velocity from [-1.5, 1.5]
(clip).  The physical-interface readings and the freshly updated
`messageReceived` are parameters. -/
def get_observations (cartPosRaw cartVelRaw : ℚ)
    (messageReceived : Option (List (List Char))) (endpointVelRaw : ℚ) :
    Except String (List ℚ) :=
  let cartPosition := normalizeToRange cartPosRaw (-4/10) (4/10) (-1) 1 false
  let cartVelocity := normalizeToRange cartVelRaw (-2/10) (2/10) (-1) 1 true
  match messageReceived with
  | some m =>
    match m.head? with
    | none => Except.error "IndexError: list index out of range"
    | some tok =>
      match pyFloat tok with
      | none => Except.error "ValueError: could not convert string to float"
      | some x =>
        let poleAngle := normalizeToRange x (-23/100) (23/100) (-1) 1 true
        Except.ok [cartPosition, cartVelocity, poleAngle,
          normalizeToRange endpointVelRaw (-15/10) (15/10) (-1) 1 true]
  | none =>
    Except.ok [cartPosition, cartVelocity, 0,
      normalizeToRange endpointVelRaw (-15/10) (15/10) (-1) 1 true]

/-- Python `round(x, 2)`, modelled as round-half-up on rationals (Python
floats use banker's rounding, which only differs on exact half-cent
values). -/
def pyRound2 (q : ℚ) : ℚ :=
  (round (q * 100) : ℤ) / 100

/-- The pole angle used by `is_done`: `round(float(messageReceived[0]), 2)`
when a message has been received, else `0.0`. -/
def poleAngleRounded (messageReceived : Option (List (List Char))) : Option ℚ :=
  match messageReceived with
  | none => some 0
  | some m =>
    match m.head? with
    | none => none
    | some tok =>
      match pyFloat tok with
      | none => none
      | some x => some (pyRound2 x)

/-- `CartPoleSupervisor.is_done`: true when the episode score exceeds
195.0, or the rounded pole angle exceeds 0.261799388 in absolute value,
or the rounded cart x position exceeds 0.39 in absolute value. -/
def is_done (episodeScore : ℚ) (messageReceived : Option (List (List Char)))
    (cartPosRaw : ℚ) : Except String Bool :=
  if episodeScore > 195 then Except.ok true
  else
    match poleAngleRounded messageReceived with
    | none => Except.error "ValueError: could not convert string to float"
    | some poleAngle =>
      if |poleAngle| > 261799388 / 1000000000 then Except.ok true
      else
        if |pyRound2 cartPosRaw| > 39/100 then Except.ok true
        else Except.ok false

/-- `CartPoleSupervisor.solved`: more than 100 completed episodes and the
mean (`np.mean`) of the last 100 scores (`episodeScoreList[-100:]`) above
195.0. -/
def solved (episodeScoreList : List ℚ) : Bool :=
  if episodeScoreList.length > 100 then
    let last100 := episodeScoreList.drop (episodeScoreList.length - 100)
    if last100.sum / (last100.length : ℚ) > 195 then true else false
  else false

/-- A concrete initialized robot state used to instantiate theorems. -/
def initS : RobotState :=
  { emitterChannel := 1, receiverChannel := 1,
    wheels := List.replicate 4 ⟨none, 0⟩ }

/-- The action `int(message[0])` read by the discrete `use_message_data`. -/
def msgAction (m : List (List Char)) : Option ℤ :=
  match m.head? with
  | none => none
  | some tok => pyInt tok

theorem setWheels_setWheels (v w : ℚ) (s : RobotState) :
    setWheels v (setWheels w s) = setWheels v s := by
  simp [setWheels, List.map_map]

theorem setWheels_emitterChannel (v : ℚ) (s : RobotState) :
    (setWheels v s).emitterChannel = s.emitterChannel := rfl

theorem setWheels_receiverChannel (v : ℚ) (s : RobotState) :
    (setWheels v s).receiverChannel = s.receiverChannel := rfl

theorem use_message_data_ok_iff (m : List (List Char)) (s s' : RobotState) :
    use_message_data m s = Except.ok s' ↔
      ∃ a : ℤ, msgAction m = some a ∧ (a = 0 ∨ a = 1) ∧
        s' = setWheels (if a = 0 then 5 else -5) s := by
  unfold use_message_data msgAction
  cases hh : m.head? with
  | none => simp
  | some tok =>
    cases hp : pyInt tok with
    | none => simp [hp]
    | some a =>
      by_cases hd : a = 0 ∨ a = 1
      · simp [hp, hd, eq_comm]
      · simp [hp, hd]

theorem splitOnChar_ne_nil (d : Char) (cs : List Char) :
    splitOnChar d cs ≠ [] := by
  cases cs with
  | nil => simp [splitOnChar]
  | cons c cs =>
    cases h : splitOnChar d cs with
    | nil => simp [splitOnChar, h]
    | cons t ts =>
      simp only [splitOnChar, h]
      split <;> simp

theorem splitOnChar_no_delim (d : Char) (t : List Char)
    (h : ∀ c ∈ t, c ≠ d) : splitOnChar d t = [t] := by
  induction t with
  | nil => rfl
  | cons c cs ih =>
    have hc : c ≠ d := h c (by simp)
    have ih' := ih (fun x hx => h x (by simp [hx]))
    simp [splitOnChar, ih', hc]

theorem splitOnChar_append_delim (d : Char) (t rest : List Char)
    (h : ∀ c ∈ t, c ≠ d) :
    splitOnChar d (t ++ d :: rest) = t :: splitOnChar d rest := by
  induction t with
  | nil =>
    obtain ⟨a, as, hsp⟩ := List.exists_cons_of_ne_nil (splitOnChar_ne_nil d rest)
    simp [splitOnChar, hsp]
  | cons c cs ih =>
    have hc : c ≠ d := h c (by simp)
    have ih' := ih (fun x hx => h x (by simp [hx]))
    simp [splitOnChar, ih', hc]

theorem handle_receiver_last (q : List (List Char)) (f : List Char)
    (s s' : RobotState) (hlast : q.getLast? = some f)
    (hrun : handle_receiver q s = Except.ok s') :
    use_message_data (decodeFrame f) s = Except.ok s' := by
  induction q generalizing s with
  | nil => simp at hlast
  | cons frame rest ih =>
    have hrun' : (match use_message_data (decodeFrame frame) s with
        | Except.ok s2 => handle_receiver rest s2
        | Except.error e => Except.error e) = Except.ok s' := hrun
    cases huse : use_message_data (decodeFrame frame) s with
    | error e =>
      rw [huse] at hrun'
      exact absurd hrun' (by simp)
    | ok s2 =>
      rw [huse] at hrun'
      have hrun2 : handle_receiver rest s2 = Except.ok s' := hrun'
      cases rest with
      | nil =>
        simp only [List.getLast?_singleton, Option.some.injEq] at hlast
        subst hlast
        have hs : s2 = s' := by
          have : Except.ok (ε := String) s2 = Except.ok s' := hrun2
          simpa using this
        exact hs ▸ huse
      | cons r2 rs =>
        have hlast' : (r2 :: rs).getLast? = some f := by
          rw [List.getLast?_cons_cons] at hlast
          exact hlast
        have h2 := ih s2 hlast' hrun2
        obtain ⟨a1, ha1, hd1, rfl⟩ := (use_message_data_ok_iff _ _ _).mp huse
        obtain ⟨a2, ha2, hd2, hs'⟩ := (use_message_data_ok_iff _ _ _).mp h2
        refine (use_message_data_ok_iff _ _ _).mpr ⟨a2, ha2, hd2, ?_⟩
        rw [hs', setWheels_setWheels]

theorem drainTrace_spec (q : List (List Char)) (s s' : RobotState)
    (evs : List RunEvent)
    (h : drainTrace q s = Except.ok (s', evs)) :
    evs = q.map RunEvent.applied ∧ handle_receiver q s = Except.ok s' := by
  induction q generalizing s evs with
  | nil =>
    have h0 : Except.ok (ε := String) (s, ([] : List RunEvent)) =
        Except.ok (s', evs) := h
    simp only [Except.ok.injEq, Prod.mk.injEq] at h0
    obtain ⟨rfl, rfl⟩ := h0
    exact ⟨rfl, rfl⟩
  | cons frame rest ih =>
    have h1 : (match use_message_data (decodeFrame frame) s with
        | Except.ok s2 =>
          match drainTrace rest s2 with
          | Except.ok (s3, evs) => Except.ok (s3, RunEvent.applied frame :: evs)
          | Except.error e => Except.error e
        | Except.error e => Except.error e) = Except.ok (s', evs) := h
    cases huse : use_message_data (decodeFrame frame) s with
    | error e =>
      rw [huse] at h1
      exact absurd h1 (by simp)
    | ok s2 =>
      rw [huse] at h1
      have h2 : (match drainTrace rest s2 with
          | Except.ok (s3, evs) => Except.ok (s3, RunEvent.applied frame :: evs)
          | Except.error e => Except.error e) = Except.ok (s', evs) := h1
      cases hdt : drainTrace rest s2 with
      | error e =>
        rw [hdt] at h2
        exact absurd h2 (by simp)
      | ok p =>
        obtain ⟨s3, evs3⟩ := p
        rw [hdt] at h2
        simp only [Except.ok.injEq, Prod.mk.injEq] at h2
        obtain ⟨rfl, rfl⟩ := h2
        obtain ⟨he, hr⟩ := ih s2 evs3 hdt
        refine ⟨by simp [he], ?_⟩
        have : handle_receiver (frame :: rest) s =
            (match use_message_data (decodeFrame frame) s with
            | Except.ok s2 => handle_receiver rest s2
            | Except.error e => Except.error e) := rfl
        rw [this, huse]
        exact hr

theorem drainTrace_channels (q : List (List Char)) (s s' : RobotState)
    (evs : List RunEvent)
    (h : drainTrace q s = Except.ok (s', evs)) :
    s'.emitterChannel = s.emitterChannel ∧
    s'.receiverChannel = s.receiverChannel := by
  induction q generalizing s evs with
  | nil =>
    have h0 : Except.ok (ε := String) (s, ([] : List RunEvent)) =
        Except.ok (s', evs) := h
    simp only [Except.ok.injEq, Prod.mk.injEq] at h0
    obtain ⟨rfl, rfl⟩ := h0
    exact ⟨rfl, rfl⟩
  | cons frame rest ih =>
    have h1 : (match use_message_data (decodeFrame frame) s with
        | Except.ok s2 =>
          match drainTrace rest s2 with
          | Except.ok (s3, evs) => Except.ok (s3, RunEvent.applied frame :: evs)
          | Except.error e => Except.error e
        | Except.error e => Except.error e) = Except.ok (s', evs) := h
    cases huse : use_message_data (decodeFrame frame) s with
    | error e =>
      rw [huse] at h1
      exact absurd h1 (by simp)
    | ok s2 =>
      rw [huse] at h1
      have h2 : (match drainTrace rest s2 with
          | Except.ok (s3, evs) => Except.ok (s3, RunEvent.applied frame :: evs)
          | Except.error e => Except.error e) = Except.ok (s', evs) := h1
      cases hdt : drainTrace rest s2 with
      | error e =>
        rw [hdt] at h2
        exact absurd h2 (by simp)
      | ok p =>
        obtain ⟨s3, evs3⟩ := p
        rw [hdt] at h2
        simp only [Except.ok.injEq, Prod.mk.injEq] at h2
        obtain ⟨rfl, rfl⟩ := h2
        obtain ⟨he, hr⟩ := ih s2 evs3 hdt
        obtain ⟨a, _, _, hs2⟩ := (use_message_data_ok_iff _ _ _).mp huse
        have he2 : s2.emitterChannel = s.emitterChannel := by
          rw [hs2, setWheels_emitterChannel]
        have hr2 : s2.receiverChannel = s.receiverChannel := by
          rw [hs2, setWheels_receiverChannel]
        exact ⟨he.trans he2, hr.trans hr2⟩

theorem decode_encode_of_ne_nil (toks : List (List Char))
    (hne : toks ≠ [])
    (hfree : ∀ t ∈ toks, ∀ c ∈ t, c ≠ ',') :
    decodeFrame (encodeFrame toks) = toks := by
  induction toks with
  | nil => exact absurd rfl hne
  | cons t ts ih =>
    cases ts with
    | nil =>
      show splitOnChar ',' t = [t]
      exact splitOnChar_no_delim ',' t (hfree t (by simp))
    | cons t2 ts2 =>
      have step : encodeFrame (t :: t2 :: ts2) =
          t ++ ',' :: encodeFrame (t2 :: ts2) := rfl
      unfold decodeFrame
      rw [step, splitOnChar_append_delim ',' t _ (hfree t (by simp))]
      have ih' := ih (by simp)
        (fun x hx => hfree x (List.mem_cons_of_mem t hx))
      unfold decodeFrame at ih'
      rw [ih']

/-- C1: draining the inbound queue applies every queued frame in order,
but the post-drain state is exactly the state induced by the last frame
alone (applied to the pre-drain state) — for a queue `[f1, f2, f3]` the
effective command is `f3` and `f1`, `f2` leave no trace in the resulting
wheel velocities. -/
theorem C1_drain_last_write_wins :
    (∀ (q : List (List Char)) (f : List Char) (s s' : RobotState),
        q.getLast? = some f →
        handle_receiver q s = Except.ok s' →
        use_message_data (decodeFrame f) s = Except.ok s') ∧
    (∀ (f1 f2 f3 : List Char) (s s' : RobotState),
        handle_receiver [f1, f2, f3] s = Except.ok s' →
        use_message_data (decodeFrame f3) s = Except.ok s') := by
  constructor
  · exact fun q f s s' h1 h2 => handle_receiver_last q f s s' h1 h2
  · intro f1 f2 f3 s s' hrun
    exact handle_receiver_last [f1, f2, f3] f3 s s' (by rfl) hrun

theorem C1_drain_last_write_wins_witness :
    use_message_data (decodeFrame ['1']) initS =
      Except.ok (setWheels (-5) initS) :=
  C1_drain_last_write_wins.2 ['0'] ['0'] ['1'] initS (setWheels (-5) initS)
    (by rfl)

/-- C4 counterexample: the claim quantifies over every scalar sequence,
but for the empty sequence the encoded frame is the empty text and
decoding it yields the one-element list holding the empty token, not the
empty sequence (Python: `"".split(",") == [""]`). -/
theorem C4_counterexample_empty :
    decodeFrame (encodeFrame []) = [[]] ∧
    decodeFrame (encodeFrame []) ≠ ([] : List (List Char)) := by
  exact ⟨rfl, by simp [decodeFrame, encodeFrame, splitOnChar]⟩

/-- C4 (amended): for every nonempty ordered sequence of fields whose
string forms do not contain the comma delimiter, decoding the encoded
frame yields the fields again, in the original order. -/
theorem C4_roundtrip_nonempty :
    ∀ toks : List (List Char), toks ≠ [] →
      (∀ t ∈ toks, ∀ c ∈ t, c ≠ ',') →
      decodeFrame (encodeFrame toks) = toks :=
  fun toks h1 h2 => decode_encode_of_ne_nil toks h1 h2

theorem C4_roundtrip_nonempty_witness :
    decodeFrame (encodeFrame [['0', '.', '2'], ['-', '1']]) =
      [['0', '.', '2'], ['-', '1']] :=
  C4_roundtrip_nonempty [['0', '.', '2'], ['-', '1']] (by simp) (by decide)

theorem pyRound2_intCast_div100 (n : ℤ) :
    pyRound2 ((n : ℚ) / 100) = (n : ℚ) / 100 := by
  unfold pyRound2
  have h : ((n : ℚ) / 100) * 100 = (n : ℚ) := by field_simp
  rw [h, round_intCast]

theorem pyRound2_zero : pyRound2 (0 : ℚ) = 0 := by
  unfold pyRound2
  norm_num

theorem pyFloat_027 : pyFloat ['0', '.', '2', '7'] = some (27/100 : ℚ) := by
  have hf0 : pyFloat ['0', '.', '2', '7'] =
      some (((0 : ℕ) : ℚ) + ((27 : ℕ) : ℚ) / (10 : ℚ) ^ 2) := rfl
  rw [hf0]
  norm_num

theorem pyFloat_026 : pyFloat ['0', '.', '2', '6'] = some (26/100 : ℚ) := by
  have hf0 : pyFloat ['0', '.', '2', '6'] =
      some (((0 : ℕ) : ℚ) + ((26 : ℕ) : ℚ) / (10 : ℚ) ^ 2) := rfl
  rw [hf0]
  norm_num

theorem poleAngleRounded_027 :
    poleAngleRounded (some [['0', '.', '2', '7']]) = some (27/100 : ℚ) := by
  have h : poleAngleRounded (some [['0', '.', '2', '7']]) =
      (pyFloat ['0', '.', '2', '7']).map pyRound2 := by
    unfold poleAngleRounded
    cases hp : pyFloat ['0', '.', '2', '7'] <;> simp [hp]
  rw [h, pyFloat_027]
  have h27 := pyRound2_intCast_div100 27
  push_cast at h27
  simp [h27]

theorem poleAngleRounded_026 :
    poleAngleRounded (some [['0', '.', '2', '6']]) = some (26/100 : ℚ) := by
  have h : poleAngleRounded (some [['0', '.', '2', '6']]) =
      (pyFloat ['0', '.', '2', '6']).map pyRound2 := by
    unfold poleAngleRounded
    cases hp : pyFloat ['0', '.', '2', '6'] <;> simp [hp]
  rw [h, pyFloat_026]
  have h26 := pyRound2_intCast_div100 26
  push_cast at h26
  simp [h26]

/-- C2: `is_done` decides exactly the disjunction: episode score above
195.0, or the message's pole angle rounded to 2 decimals above
0.261799388 in absolute value, or the cart x position rounded to 2
decimals above 0.39 in absolute value; in particular a message whose
rounded angle is exactly 0.27 yields true and exactly 0.26 yields false
when score and position are below their bounds. -/
theorem C2_is_done_disjunction :
    (∀ (score pos : ℚ) (msg : Option (List (List Char))) (angle : ℚ),
        poleAngleRounded msg = some angle →
        is_done score msg pos =
          Except.ok (decide (195 < score ∨
            261799388 / 1000000000 < |angle| ∨
            39/100 < |pyRound2 pos|))) ∧
    is_done 0 (some [['0', '.', '2', '7']]) 0 = Except.ok true ∧
    is_done 0 (some [['0', '.', '2', '6']]) 0 = Except.ok false := by
  have hmain : ∀ (score pos : ℚ) (msg : Option (List (List Char)))
      (angle : ℚ), poleAngleRounded msg = some angle →
      is_done score msg pos =
        Except.ok (decide (195 < score ∨
          261799388 / 1000000000 < |angle| ∨
          39/100 < |pyRound2 pos|)) := by
    intro score pos msg angle hmsg
    unfold is_done
    rw [hmsg]
    by_cases h1 : (195 : ℚ) < score
    · simp [h1]
    · by_cases h2 : (261799388 : ℚ) / 1000000000 < |angle|
      · simp [h1, h2]
      · by_cases h3 : (39 : ℚ) / 100 < |pyRound2 pos|
        · simp [h1, h2, h3]
        · simp [h1, h2, h3]
  refine ⟨hmain, ?_, ?_⟩
  · rw [hmain 0 0 (some [['0', '.', '2', '7']]) (27/100) poleAngleRounded_027]
    congr 1
    rw [decide_eq_true_eq]
    right; left
    rw [abs_of_nonneg (by norm_num)]
    norm_num
  · rw [hmain 0 0 (some [['0', '.', '2', '6']]) (26/100) poleAngleRounded_026]
    congr 1
    rw [decide_eq_false_iff_not]
    refine not_or.mpr ⟨by norm_num, not_or.mpr ⟨?_, ?_⟩⟩
    · rw [abs_of_nonneg (by norm_num)]
      norm_num
    · rw [pyRound2_zero]
      norm_num

theorem C2_is_done_disjunction_witness :
    is_done 196 none 0 = Except.ok true := by
  have h := C2_is_done_disjunction.1 196 0 none 0 rfl
  have hd : decide ((195 : ℚ) < 196 ∨
      261799388 / 1000000000 < |(0 : ℚ)| ∨
      (39 : ℚ)/100 < |pyRound2 0|) = true := by
    rw [decide_eq_true_eq]
    left
    norm_num
  rw [h, hd]

/-- C3: `solved` is true exactly when more than 100 episode scores have
been recorded and the mean of the last 100 exceeds 195.0; any history of
at most 100 scores yields false, and a 101-score history whose last 100
entries all equal 196.0 yields true. -/
theorem C3_solved_rolling_mean :
    (∀ l : List ℚ, solved l = true ↔
        100 < l.length ∧ 195 < (l.drop (l.length - 100)).sum / 100) ∧
    (∀ l : List ℚ, l.length ≤ 100 → solved l = false) ∧
    solved (0 :: List.replicate 100 196) = true := by
  have hmain : ∀ l : List ℚ, solved l = true ↔
      100 < l.length ∧ 195 < (l.drop (l.length - 100)).sum / 100 := by
    intro l
    by_cases hl : 100 < l.length
    · have hlen : (l.drop (l.length - 100)).length = 100 := by
        rw [List.length_drop]
        omega
      have hshow : solved l =
          (if 195 < (l.drop (l.length - 100)).sum /
              ((l.drop (l.length - 100)).length : ℚ) then true else false) := by
        unfold solved
        rw [if_pos hl]
      rw [hshow, hlen]
      push_cast
      by_cases hs : 195 < (l.drop (l.length - 100)).sum / 100
      · simp [hs, hl]
      · simp [hs, hl]
    · have hshow : solved l = false := by
        unfold solved
        rw [if_neg hl]
      rw [hshow]
      simp [hl]
  have hle : ∀ l : List ℚ, l.length ≤ 100 → solved l = false := by
    intro l hl
    cases hsol : solved l with
    | false => rfl
    | true => exact absurd ((hmain l).mp hsol).1 (by omega)
  refine ⟨hmain, hle, ?_⟩
  refine (hmain (0 :: List.replicate 100 196)).mpr ⟨by simp, ?_⟩
  have hd : (0 :: List.replicate 100 (196 : ℚ)).drop
      ((0 :: List.replicate 100 (196 : ℚ)).length - 100) =
      List.replicate 100 196 := by simp
  rw [hd, List.sum_replicate]
  norm_num

theorem C3_solved_rolling_mean_witness : solved ([] : List ℚ) = false :=
  C3_solved_rolling_mean.2.1 [] (by simp)

/-- C5: the discrete robot's `use_message_data` fails fast (assertion
error, no motor speed applied) on any command whose first field parses to
an integer outside {0, 1} — in particular on the frame "2" — while
action 0 sets all wheel velocities to 5.0 and action 1 to -5.0. -/
theorem C5_discrete_action_contract :
    (∀ (message : List (List Char)) (tok : List Char) (a : ℤ)
        (s : RobotState),
        message.head? = some tok → pyInt tok = some a → ¬(a = 0 ∨ a = 1) →
        ∃ e, use_message_data message s = Except.error e) ∧
    (∀ s : RobotState,
        use_message_data (decodeFrame ['2']) s =
          Except.error
            ("AssertionError: CartPoleRobot controller got incorrect action value: 2")) ∧
    (∀ (tok : List Char) (rest : List (List Char)) (s : RobotState),
        pyInt tok = some 0 →
        use_message_data (tok :: rest) s = Except.ok (setWheels 5 s)) ∧
    (∀ (tok : List Char) (rest : List (List Char)) (s : RobotState),
        pyInt tok = some 1 →
        use_message_data (tok :: rest) s = Except.ok (setWheels (-5) s)) ∧
    (∀ s : RobotState, ∀ w ∈ (setWheels 5 s).wheels, w.velocity = 5) ∧
    (∀ s : RobotState, ∀ w ∈ (setWheels (-5) s).wheels, w.velocity = -5) := by
  refine ⟨?_, fun s => rfl, ?_, ?_, ?_, ?_⟩
  · intro message tok a s hh hp hd
    refine ⟨"AssertionError: CartPoleRobot controller got incorrect action value: "
      ++ toString a, ?_⟩
    simp [use_message_data, hh, hp, hd]
  · intro tok rest s hp
    simp [use_message_data, hp]
  · intro tok rest s hp
    simp [use_message_data, hp]
  · intro s w hw
    simp only [setWheels, List.mem_map] at hw
    obtain ⟨x, _, heq⟩ := hw
    rw [← heq]
  · intro s w hw
    simp only [setWheels, List.mem_map] at hw
    obtain ⟨x, _, heq⟩ := hw
    rw [← heq]

theorem C5_discrete_action_contract_witness :
    (∃ e, use_message_data [['2']] initS = Except.error e) ∧
    use_message_data [['0']] initS = Except.ok (setWheels 5 initS) :=
  ⟨C5_discrete_action_contract.1 [['2']] ['2'] 2 initS rfl (by decide)
      (by decide),
   C5_discrete_action_contract.2.2.1 ['0'] [] initS (by decide)⟩

/-- C6: with no robot message received (`messageReceived = None`),
`get_observations` raises nothing: it returns a 4-element observation
whose pole-angle entry is the zero default, and `get_default_observation`
is the all-zero vector of the configured observation width. -/
theorem C6_default_observation :
    (∀ p v w : ℚ,
        get_observations p v none w =
          Except.ok [normalizeToRange p (-4/10) (4/10) (-1) 1 false,
            normalizeToRange v (-2/10) (2/10) (-1) 1 true, 0,
            normalizeToRange w (-15/10) (15/10) (-1) 1 true]) ∧
    (∀ p v w : ℚ, ∃ l, get_observations p v none w = Except.ok l ∧
        l.length = 4 ∧ l.get? 2 = some 0) ∧
    get_default_observation = [0, 0, 0, 0] := by
  exact ⟨fun p v w => rfl, fun p v w => ⟨_, rfl, rfl, rfl⟩, rfl⟩

/-- C7: `normalizeToRange` maps `[lo, hi]` affinely onto `[a, b]`; with
target `[-1, 1]` and clipping it is monotone, sends `lo` to -1 and `hi`
to 1, and always lands in `[-1, 1]`; without clipping, out-of-range
inputs give out-of-range outputs. -/
theorem C7_normalize_affine_law :
    ∀ lo hi : ℚ, lo < hi →
      (∀ a b : ℚ, normalizeToRange lo lo hi a b false = a ∧
          normalizeToRange hi lo hi a b false = b ∧
          ∃ c d : ℚ, ∀ v : ℚ,
            normalizeToRange v lo hi a b false = c * v + d) ∧
      (∀ v w : ℚ, v ≤ w →
          normalizeToRange v lo hi (-1) 1 true ≤
            normalizeToRange w lo hi (-1) 1 true) ∧
      normalizeToRange lo lo hi (-1) 1 true = -1 ∧
      normalizeToRange hi lo hi (-1) 1 true = 1 ∧
      (∀ v : ℚ, -1 ≤ normalizeToRange v lo hi (-1) 1 true ∧
          normalizeToRange v lo hi (-1) 1 true ≤ 1) ∧
      (∀ v : ℚ, hi < v → 1 < normalizeToRange v lo hi (-1) 1 false) ∧
      (∀ v : ℚ, v < lo → normalizeToRange v lo hi (-1) 1 false < -1) := by
  intro lo hi hlt
  have hpos : (0 : ℚ) < hi - lo := sub_pos.mpr hlt
  have hne : hi - lo ≠ 0 := ne_of_gt hpos
  have hy : ∀ a b v : ℚ, normalizeToRange v lo hi a b false =
      (b - a) * (v - lo) / (hi - lo) + a := fun a b v => rfl
  have hclip : ∀ v : ℚ, normalizeToRange v lo hi (-1) 1 true =
      min 1 (max (-1) ((1 - (-1)) * (v - lo) / (hi - lo) + (-1))) :=
    fun v => rfl
  have hlo : ∀ a b : ℚ, normalizeToRange lo lo hi a b false = a := by
    intro a b
    rw [hy]
    simp
  have hhi : ∀ a b : ℚ, normalizeToRange hi lo hi a b false = b := by
    intro a b
    rw [hy]
    field_simp
  refine ⟨?_, ?_, ?_, ?_, ?_, ?_, ?_⟩
  · intro a b
    refine ⟨hlo a b, hhi a b, (b - a) / (hi - lo),
      a - (b - a) * lo / (hi - lo), ?_⟩
    intro v
    rw [hy]
    field_simp
    ring
  · intro v w hvw
    rw [hclip v, hclip w]
    refine min_le_min le_rfl (max_le_max le_rfl ?_)
    have h2 : (1 - (-1)) * (v - lo) / (hi - lo) ≤
        (1 - (-1)) * (w - lo) / (hi - lo) := by
      exact div_le_div_of_nonneg_right (by linarith) (le_of_lt hpos)
    linarith
  · have h := hlo (-1) 1
    rw [hclip, ← hy]
    rw [h]
    norm_num
  · have h := hhi (-1) 1
    rw [hclip, ← hy]
    rw [h]
    norm_num
  · intro v
    rw [hclip v]
    exact ⟨le_min (by norm_num) (le_max_left _ _), min_le_left _ _⟩
  · intro v hv
    rw [hy]
    have h1 : 1 < (v - lo) / (hi - lo) := (one_lt_div hpos).mpr (by linarith)
    have h2 : (1 - (-1)) * (v - lo) / (hi - lo) =
        2 * ((v - lo) / (hi - lo)) := by
      rw [mul_div_assoc]
      norm_num
    rw [h2]
    linarith
  · intro v hv
    rw [hy]
    have h1 : (v - lo) / (hi - lo) < 0 :=
      div_neg_of_neg_of_pos (by linarith) hpos
    have h2 : (1 - (-1)) * (v - lo) / (hi - lo) =
        2 * ((v - lo) / (hi - lo)) := by
      rw [mul_div_assoc]
      norm_num
    rw [h2]
    linarith

theorem C7_normalize_affine_law_witness :
    normalizeToRange 0 0 1 (-1) 1 true = -1 ∧
    normalizeToRange 1 0 1 (-1) 1 true = 1 :=
  ⟨(C7_normalize_affine_law 0 1 (by norm_num)).2.2.1,
   (C7_normalize_affine_law 0 1 (by norm_num)).2.2.2.1⟩

/-- C8: construction sets the emitter channel and the receiver channel to
the same number, the integer value of the last character of the robot's
name, and no tick of the run loop ever changes either channel. -/
theorem C8_channel_assignment_invariant :
    (∀ (name : List Char) (s : RobotState),
        cartPoleRobot_init name = some s →
        ∃ n : ℤ, robot_num name = some n ∧
          s.emitterChannel = n ∧ s.receiverChannel = n) ∧
    (∀ (s : RobotState) (q : List (List Char)) (v : ℚ)
        (s' : RobotState) (tr : List RunEvent),
        runTick q v s = Except.ok (s', tr) →
        s'.emitterChannel = s.emitterChannel ∧
        s'.receiverChannel = s.receiverChannel) := by
  constructor
  · intro name s hinit
    have h1 : (match robot_num name with
        | none => none
        | some n =>
          some (RobotState.mk n n (List.replicate 4 ⟨none, 0⟩)))
        = some s := hinit
    cases hn : robot_num name with
    | none =>
      rw [hn] at h1
      exact absurd h1 (by simp)
    | some n =>
      rw [hn] at h1
      have hs : RobotState.mk n n (List.replicate 4 ⟨none, 0⟩) = s := by
        simpa using h1
      exact ⟨n, rfl, by rw [← hs], by rw [← hs]⟩
  · intro s q v s' tr hrun
    have h1 : (match drainTrace q s with
        | Except.ok (s2, evs) => Except.ok (s2, evs ++ [RunEvent.sent v])
        | Except.error e => Except.error e) = Except.ok (s', tr) := hrun
    cases hdt : drainTrace q s with
    | error e =>
      rw [hdt] at h1
      exact absurd h1 (by simp)
    | ok p =>
      obtain ⟨s2, evs⟩ := p
      rw [hdt] at h1
      simp only [Except.ok.injEq, Prod.mk.injEq] at h1
      obtain ⟨rfl, rfl⟩ := h1
      exact drainTrace_channels q s s2 evs hdt

theorem C8_channel_assignment_invariant_witness :
    ∃ n : ℤ, robot_num ['R', '1'] = some n ∧
      initS.emitterChannel = n ∧ initS.receiverChannel = n :=
  C8_channel_assignment_invariant.1 ['R', '1'] initS rfl

/-- C9: in every successful run-loop iteration the trace is exactly the
queued command frames applied in order followed by the single sent
observation — every command application strictly precedes the tick's one
send, and the state at send time is the fully drained state. -/
theorem C9_tick_ordering :
    ∀ (q : List (List Char)) (v : ℚ) (s s' : RobotState)
      (tr : List RunEvent),
      runTick q v s = Except.ok (s', tr) →
      tr = q.map RunEvent.applied ++ [RunEvent.sent v] ∧
      handle_receiver q s = Except.ok s' := by
  intro q v s s' tr hrun
  have h1 : (match drainTrace q s with
      | Except.ok (s2, evs) => Except.ok (s2, evs ++ [RunEvent.sent v])
      | Except.error e => Except.error e) = Except.ok (s', tr) := hrun
  cases hdt : drainTrace q s with
  | error e =>
    rw [hdt] at h1
    exact absurd h1 (by simp)
  | ok p =>
    obtain ⟨s2, evs⟩ := p
    rw [hdt] at h1
    simp only [Except.ok.injEq, Prod.mk.injEq] at h1
    obtain ⟨rfl, rfl⟩ := h1
    obtain ⟨he, hr⟩ := drainTrace_spec q s s2 evs hdt
    exact ⟨by rw [he], hr⟩

theorem C9_tick_ordering_witness :
    [RunEvent.applied ['0'], RunEvent.sent 1] =
      ([['0']].map RunEvent.applied) ++ [RunEvent.sent 1] ∧
    handle_receiver [['0']] initS = Except.ok (setWheels 5 initS) :=
  C9_tick_ordering [['0']] 1 initS (setWheels 5 initS)
    [RunEvent.applied ['0'], RunEvent.sent 1] rfl

/-- C10: the continuous robot's `use_message_data` accepts any command
whose first field parses as a float — no domain check, no fail-fast —
and sets every wheel's velocity to exactly 5.0 times the parsed value,
so all wheels always receive the same velocity. -/
theorem C10_continuous_velocity_scaling :
    ∀ (tok : List Char) (rest : List (List Char)) (s : RobotState)
      (x : ℚ),
      pyFloat tok = some x →
      use_message_data_continuous (tok :: rest) s =
        Except.ok (setWheels (x * 5) s) ∧
      ∀ w ∈ (setWheels (x * 5) s).wheels, w.velocity = x * 5 := by
  intro tok rest s x hp
  constructor
  · simp [use_message_data_continuous, hp]
  · intro w hw
    simp only [setWheels, List.mem_map] at hw
    obtain ⟨y, _, heq⟩ := hw
    rw [← heq]

theorem C10_continuous_velocity_scaling_witness :
    use_message_data_continuous [['2']] initS =
      Except.ok (setWheels (2 * 5) initS) ∧
    ∀ w ∈ (setWheels ((2 : ℚ) * 5) initS).wheels, w.velocity = 2 * 5 := by
  have hp : pyFloat ['2'] = some (2 : ℚ) := by
    have h0 : pyFloat ['2'] = some ((2 : ℕ) : ℚ) := rfl
    rw [h0]
    norm_num
  exact C10_continuous_velocity_scaling ['2'] [] initS 2 hp
